import Mathlib

/-!
Shallow embedding of `src/game.rs` (chess-rust): the FEN decoder
`Board::new_from_fen`, the helpers `char_to_piece_type`,
`piece_type_to_char`, `square_from_string`, and the renderer
`Board::render`, together with theorems settling the specification
claims about them.

Modelling conventions:
- Rust machine integers are modelled as `Nat`; casts `as u8` appear as
  explicit `% 256`; arithmetic that would overflow or underflow a `u32`
  (which panics under the default debug profile, the profile `cargo run`
  and `cargo test` use) is modelled as an explicit `panicked` outcome.
- A Rust function returning `Result<T, String>` that can additionally
  panic (`unwrap`, out-of-bounds indexing, arithmetic underflow) is
  modelled as `RResult T` with constructors `ok`, `err`, `panicked`.
- Rust `str::as_bytes` is modelled by an explicit UTF-8 encoder
  `utf8Bytes`; Rust `str::len` is the length of that byte list.
- Rust `fen.split(" ")` is modelled by `splitSpaces` on the character
  list (splitting at every space, keeping empty fields, and yielding
  one empty field for the empty string, exactly as Rust does).
-/

/-- The `PieceType` enum of the source. -/
inductive PieceType where
  | Pawn
  | Rook
  | Knight
  | Bishop
  | Queen
  | King
deriving DecidableEq

/-- The `PieceColor` enum of the source. -/
inductive PieceColor where
  | Black
  | White
deriving DecidableEq

/-- The `Piece` struct of the source: coordinates are `u32` in Rust,
modelled as `Nat`. -/
structure Piece where
  x : Nat
  y : Nat
  ptype : PieceType
  color : PieceColor
deriving DecidableEq

/-- The `Board` struct of the source. `halfmove_clock` is a `u8` and
`fullmove_num` a `u32` in Rust; both are modelled as `Nat`, with the
range restriction enforced where the source enforces it (in the
numeric field parser). -/
structure Board where
  pieces : List Piece
  current_move : PieceColor
  can_white_king_castle : Bool
  can_white_queen_castle : Bool
  can_black_king_castle : Bool
  can_black_queen_castle : Bool
  en_passant_square : Option (Nat × Nat)
  halfmove_clock : Nat
  fullmove_num : Nat
deriving DecidableEq

/-- Outcome of running a fallible Rust function: a normal `Ok` value,
a returned `Err` (carrying the Rust error string), or a panic
(`unwrap` on `Err`/`None`, slice index out of bounds, or integer
overflow under the debug profile). -/
inductive RResult (α : Type) where
  | ok : α → RResult α
  | err : String → RResult α
  | panicked : RResult α
deriving DecidableEq

/-- Source `char_to_piece_type`: the six lowercase piece letters map to
their piece kinds, anything else is an error. -/
def char_to_piece_type (c : Char) : Except String PieceType :=
  match c with
  | 'p' => .ok PieceType.Pawn
  | 'r' => .ok PieceType.Rook
  | 'n' => .ok PieceType.Knight
  | 'b' => .ok PieceType.Bishop
  | 'q' => .ok PieceType.Queen
  | 'k' => .ok PieceType.King
  | _ => .error "Invalid piece char"

/-- Source `piece_type_to_char`: total inverse mapping, always
lowercase. -/
def piece_type_to_char (c : PieceType) : Char :=
  match c with
  | PieceType.Pawn => 'p'
  | PieceType.Rook => 'r'
  | PieceType.Knight => 'n'
  | PieceType.Bishop => 'b'
  | PieceType.Queen => 'q'
  | PieceType.King => 'k'

/-- UTF-8 encoding of one character, as the list of its byte values
(what Rust's `str::as_bytes` exposes). -/
def charUtf8 (c : Char) : List Nat :=
  let n := c.toNat
  if n < 128 then [n]
  else if n < 2048 then [192 + n / 64, 128 + n % 64]
  else if n < 65536 then [224 + n / 4096, 128 + (n / 64) % 64, 128 + n % 64]
  else [240 + n / 262144, 128 + (n / 4096) % 64, 128 + (n / 64) % 64, 128 + n % 64]

/-- The UTF-8 byte list of a character list (Rust `str::as_bytes`). -/
def utf8Bytes (s : List Char) : List Nat :=
  (s.map charUtf8).flatten

/-- Source `square_from_string`. Rust checks `s.len() != 2` on the byte
length, then computes `(s.as_bytes()[0] as u32 - 'a' as u32) as u8`
(a `u32` subtraction that panics in debug mode when the first byte is
below `'a'` = 97), then `to_digit(10)` on the second byte (non-digit is
an error) and `(n - 1) as u8` (panics in debug mode when the digit is
`'0'`, since `n = 0`). -/
def square_from_string (s : List Char) : RResult (Nat × Nat) :=
  match utf8Bytes s with
  | [b0, b1] =>
    if b0 < 97 then RResult.panicked
    else if 48 ≤ b1 ∧ b1 ≤ 57 then
      let n := b1 - 48
      if n = 0 then RResult.panicked
      else RResult.ok ((b0 - 97) % 256, (n - 1) % 256)
    else RResult.err "Invalid string to turn into square."
  | _ => RResult.err "Invalid string to turn into square."

/-- Rust `fen.split(" ")` on the character list: split at every space,
keeping empty fields; the empty string yields one empty field. -/
def splitSpaces : List Char → List (List Char)
  | [] => [[]]
  | c :: rest =>
    match splitSpaces rest with
    | [] => []
    | g :: gs => if c = ' ' then [] :: g :: gs else (c :: g) :: gs

/-- One more than the largest `u32` value; `u32` arithmetic reaching
this bound panics under the debug profile. -/
def U32LIM : Nat := 4294967296

/-- The board-field scan loop of `Board::new_from_fen`: a digit
advances the file by its value, `'/'` resets the file and advances the
rank, any other character is decoded through `char_to_piece_type` on
its ASCII-lowercased form (uppercase means White) and appended at the
current coordinates, after which the file advances by one. The scan
performs no bound check on file or rank; only `u32` overflow (debug
panic) limits them. -/
def scanBoard : List Char → Nat → Nat → List Piece → RResult (List Piece)
  | [], _x, _y, acc => RResult.ok acc
  | v :: rest, x, y, acc =>
    if v.isDigit then
      if x + (v.toNat - 48) < U32LIM then scanBoard rest (x + (v.toNat - 48)) y acc
      else RResult.panicked
    else if v = '/' then
      if y + 1 < U32LIM then scanBoard rest 0 (y + 1) acc
      else RResult.panicked
    else
      match char_to_piece_type v.toLower with
      | .error _ => RResult.err "Invalid fen"
      | .ok p =>
        if x + 1 < U32LIM then
          scanBoard rest (x + 1) y
            (acc ++ [{ x := x, y := y, ptype := p,
                       color := if v.isLower then PieceColor.Black else PieceColor.White }])
        else RResult.panicked

/-- The `current_move` field expression of `Board::new_from_fen`,
verbatim: the source compares the field against `"w"` twice, so the
`Black` branch is unreachable and `"b"` falls through to the error. -/
def sideToMove (f1 : List Char) : RResult PieceColor :=
  if f1 = ['w'] then RResult.ok PieceColor.White
  else if f1 = ['w'] then RResult.ok PieceColor.Black
  else RResult.err "Invalid fen"

/-- The `en_passant_square` field expression of `Board::new_from_fen`:
`"-"` means no target, anything else goes through
`square_from_string`, whose error is mapped to `"Invalid fen"`. -/
def enPassantField (f3 : List Char) : RResult (Option (Nat × Nat)) :=
  if f3 = ['-'] then RResult.ok none
  else
    match square_from_string f3 with
    | RResult.err _ => RResult.err "Invalid fen"
    | RResult.panicked => RResult.panicked
    | RResult.ok s => RResult.ok (some s)

/-- Strip one leading `'+'`, as Rust's unsigned `FromStr` does. -/
def stripPlus (s : List Char) : List Char :=
  match s with
  | c :: rest => if c = '+' then rest else s
  | [] => s

/-- Rust `str::parse` for an unsigned integer type whose largest value
is `bound`: an optional leading `'+'`, then at least one ASCII digit
and nothing else; a value above `bound` overflows and fails. -/
def parseRustUInt (bound : Nat) (s : List Char) : Option Nat :=
  let ds := stripPlus s
  if ds.isEmpty then none
  else if ds.all Char.isDigit then
    let v := ds.foldl (fun a c => a * 10 + (c.toNat - 48)) 0
    if v ≤ bound then some v else none
  else none

/-- Source `Board::new_from_fen`. The field list is indexed without a
length check (`fen_vec[1]` … `fen_vec[5]`), so a missing field is a
panic, not an error; the two counter fields are parsed with
`.parse().unwrap()`, so a failed numeric parse is also a panic. The
stages appear in the evaluation order of the Rust function: board
scan, then the struct literal's fields in source order. -/
def new_from_fen (fen : String) : RResult Board :=
  let fenVec := splitSpaces fen.toList
  match fenVec[0]? with
  | none => RResult.panicked
  | some f0 =>
  match scanBoard f0 0 0 [] with
  | RResult.err s => RResult.err s
  | RResult.panicked => RResult.panicked
  | RResult.ok pieces =>
  match fenVec[1]? with
  | none => RResult.panicked
  | some f1 =>
  match sideToMove f1 with
  | RResult.err s => RResult.err s
  | RResult.panicked => RResult.panicked
  | RResult.ok current =>
  match fenVec[2]? with
  | none => RResult.panicked
  | some f2 =>
  match fenVec[3]? with
  | none => RResult.panicked
  | some f3 =>
  match enPassantField f3 with
  | RResult.err s => RResult.err s
  | RResult.panicked => RResult.panicked
  | RResult.ok ep =>
  match fenVec[4]? with
  | none => RResult.panicked
  | some f4 =>
  match parseRustUInt 255 f4 with
  | none => RResult.panicked
  | some halfmove =>
  match fenVec[5]? with
  | none => RResult.panicked
  | some f5 =>
  match parseRustUInt 4294967295 f5 with
  | none => RResult.panicked
  | some fullmove =>
  RResult.ok
    { pieces := pieces
      current_move := current
      can_white_king_castle := f2.contains 'K'
      can_white_queen_castle := f2.contains 'Q'
      can_black_king_castle := f2.contains 'k'
      can_black_queen_castle := f2.contains 'q'
      en_passant_square := ep
      halfmove_clock := halfmove
      fullmove_num := fullmove }

/-- The character printed for a piece by `Board::render`: the piece
letter from `piece_type_to_char`, uppercased when the piece is
White. -/
def pieceChar (p : Piece) : Char :=
  let c := piece_type_to_char p.ptype
  if p.color = PieceColor.White then c.toUpper else c

/-- The inner loop of `Board::render`: walk the piece sequence and stop
at the first piece whose coordinates match the square (`break` in the
source). -/
def findPieceAt : List Piece → Nat → Nat → Option Piece
  | [], _x, _y => none
  | v :: rest, x, y =>
    if v.x == x && v.y == y then some v else findPieceAt rest x y

/-- The two characters `Board::render` prints for one square: the piece
letter and a space, or `"* "` when no piece is on the square. -/
def squareCell (b : Board) (x y : Nat) : List Char :=
  match findPieceAt b.pieces x y with
  | some v => [pieceChar v, ' ']
  | none => ['*', ' ']

/-- One output line of `Board::render` (the characters printed for rank
`y` before the newline). -/
def lineFor (b : Board) (y : Nat) : List Char :=
  ((List.range 8).map (fun x => squareCell b x y)).flatten

/-- The eight output lines of `Board::render`, top rank first. -/
def renderLines (b : Board) : List (List Char) :=
  (List.range 8).map (fun y => lineFor b y)

/-- The full text `Board::render` writes to standard output: each of
the eight lines followed by the newline `println!` emits. -/
def render (b : Board) : List Char :=
  ((List.range 8).map (fun y => lineFor b y ++ ['\n'])).flatten

/-- Claim-side description of one rendered square: the letter of the
first piece in stored sequence order occupying `(x, y)` (a `find?`
over the sequence), or the fixed empty-square marker `'*'`, followed
by the separator space. -/
def specCell (b : Board) (x y : Nat) : List Char :=
  match b.pieces.find? (fun v => v.x == x && v.y == y) with
  | some v => [pieceChar v, ' ']
  | none => ['*', ' ']

/-- The standard initial-position FEN string used by the source's own
test. -/
def stdFen : String := "rnbqkbnr/pppppppp/8/8/8/8/PPPPPPPP/RNBQKBNR w KQkq - 0 1"

/-- The board the source's test expects `new_from_fen stdFen` to
produce: the standard starting layout, Black's back rank at rank 0,
White's at rank 7. -/
def stdBoard : Board :=
  { pieces :=
      [{ x := 0, y := 0, ptype := PieceType.Rook, color := PieceColor.Black },
       { x := 1, y := 0, ptype := PieceType.Knight, color := PieceColor.Black },
       { x := 2, y := 0, ptype := PieceType.Bishop, color := PieceColor.Black },
       { x := 3, y := 0, ptype := PieceType.Queen, color := PieceColor.Black },
       { x := 4, y := 0, ptype := PieceType.King, color := PieceColor.Black },
       { x := 5, y := 0, ptype := PieceType.Bishop, color := PieceColor.Black },
       { x := 6, y := 0, ptype := PieceType.Knight, color := PieceColor.Black },
       { x := 7, y := 0, ptype := PieceType.Rook, color := PieceColor.Black },
       { x := 0, y := 1, ptype := PieceType.Pawn, color := PieceColor.Black },
       { x := 1, y := 1, ptype := PieceType.Pawn, color := PieceColor.Black },
       { x := 2, y := 1, ptype := PieceType.Pawn, color := PieceColor.Black },
       { x := 3, y := 1, ptype := PieceType.Pawn, color := PieceColor.Black },
       { x := 4, y := 1, ptype := PieceType.Pawn, color := PieceColor.Black },
       { x := 5, y := 1, ptype := PieceType.Pawn, color := PieceColor.Black },
       { x := 6, y := 1, ptype := PieceType.Pawn, color := PieceColor.Black },
       { x := 7, y := 1, ptype := PieceType.Pawn, color := PieceColor.Black },
       { x := 0, y := 6, ptype := PieceType.Pawn, color := PieceColor.White },
       { x := 1, y := 6, ptype := PieceType.Pawn, color := PieceColor.White },
       { x := 2, y := 6, ptype := PieceType.Pawn, color := PieceColor.White },
       { x := 3, y := 6, ptype := PieceType.Pawn, color := PieceColor.White },
       { x := 4, y := 6, ptype := PieceType.Pawn, color := PieceColor.White },
       { x := 5, y := 6, ptype := PieceType.Pawn, color := PieceColor.White },
       { x := 6, y := 6, ptype := PieceType.Pawn, color := PieceColor.White },
       { x := 7, y := 6, ptype := PieceType.Pawn, color := PieceColor.White },
       { x := 0, y := 7, ptype := PieceType.Rook, color := PieceColor.White },
       { x := 1, y := 7, ptype := PieceType.Knight, color := PieceColor.White },
       { x := 2, y := 7, ptype := PieceType.Bishop, color := PieceColor.White },
       { x := 3, y := 7, ptype := PieceType.Queen, color := PieceColor.White },
       { x := 4, y := 7, ptype := PieceType.King, color := PieceColor.White },
       { x := 5, y := 7, ptype := PieceType.Bishop, color := PieceColor.White },
       { x := 6, y := 7, ptype := PieceType.Knight, color := PieceColor.White },
       { x := 7, y := 7, ptype := PieceType.Rook, color := PieceColor.White }],
    current_move := PieceColor.White,
    can_white_king_castle := true,
    can_white_queen_castle := true,
    can_black_king_castle := true,
    can_black_queen_castle := true,
    en_passant_square := none,
    halfmove_clock := 0,
    fullmove_num := 1 }

/-- Strict scan order on pieces: earlier rank, or the same rank and an
earlier file. The board-field scan emits pieces in exactly this
order. -/
def lexLt (p q : Piece) : Prop :=
  p.y < q.y ∨ (p.y = q.y ∧ p.x < q.x)

/-- A field is a numeral when it is nonempty and consists of ASCII
digits only. -/
def isNumeral (s : List Char) : Bool :=
  !s.isEmpty && s.all Char.isDigit

/-- The value of a digit-string field read in base 10. -/
def numeralVal (s : List Char) : Nat :=
  s.foldl (fun a c => a * 10 + (c.toNat - 48)) 0

/-- Claim-side description of the en-passant square decoder, written
from the amended claim's words: the field must be exactly two bytes; a
first byte below `'a'` panics on integer underflow; a second byte that
is the digit `'0'` likewise panics; a second byte that is a digit
`'1'`–`'9'` decodes the field to (first byte minus `'a'`, digit minus
one), with no upper bound on the file; and only a wrong length or a
non-digit second byte yields the invalid-square error. -/
def squareFromStringSpec (s : List Char) : RResult (Nat × Nat) :=
  match utf8Bytes s with
  | [b0, b1] =>
    if b0 < 97 then RResult.panicked
    else if b1 = 48 then RResult.panicked
    else if 49 ≤ b1 ∧ b1 ≤ 57 then RResult.ok (b0 - 97, b1 - 49)
    else RResult.err "Invalid string to turn into square."
  | _ => RResult.err "Invalid string to turn into square."

/-- The board accepted for a board field whose first rank holds nine
pawns: the ninth pawn sits at file 8, outside the 0–7 range. -/
def ninePawnBoard : Board :=
  { pieces :=
      [{ x := 0, y := 0, ptype := PieceType.Pawn, color := PieceColor.Black },
       { x := 1, y := 0, ptype := PieceType.Pawn, color := PieceColor.Black },
       { x := 2, y := 0, ptype := PieceType.Pawn, color := PieceColor.Black },
       { x := 3, y := 0, ptype := PieceType.Pawn, color := PieceColor.Black },
       { x := 4, y := 0, ptype := PieceType.Pawn, color := PieceColor.Black },
       { x := 5, y := 0, ptype := PieceType.Pawn, color := PieceColor.Black },
       { x := 6, y := 0, ptype := PieceType.Pawn, color := PieceColor.Black },
       { x := 7, y := 0, ptype := PieceType.Pawn, color := PieceColor.Black },
       { x := 8, y := 0, ptype := PieceType.Pawn, color := PieceColor.Black }],
    current_move := PieceColor.White,
    can_white_king_castle := true,
    can_white_queen_castle := true,
    can_black_king_castle := true,
    can_black_queen_castle := true,
    en_passant_square := none,
    halfmove_clock := 0,
    fullmove_num := 1 }

/-- The board accepted for a board field with nine ranks: its single
piece sits at rank 8, outside the 0–7 range. -/
def overflowRankBoard : Board :=
  { pieces := [{ x := 0, y := 8, ptype := PieceType.Pawn, color := PieceColor.Black }],
    current_move := PieceColor.White,
    can_white_king_castle := true,
    can_white_queen_castle := true,
    can_black_king_castle := true,
    can_black_queen_castle := true,
    en_passant_square := none,
    halfmove_clock := 0,
    fullmove_num := 1 }

/-- Claim C1 (failing input): the decoder compares the side-to-move
field against `"w"` twice and never against `"b"`, so the encoding
whose second field is exactly `"b"` is rejected with the generic error
instead of producing a Black-to-move position. -/
theorem side_to_move_b_rejected :
    new_from_fen "rnbqkbnr/pppppppp/8/8/8/8/PPPPPPPP/RNBQKBNR b KQkq - 0 1" =
      RResult.err "Invalid fen" := by
  decide

/-- Claim C2 (failing input): an encoding with only five
space-separated fields makes the decoder index past the end of the
field vector, which is a panic, not a returned malformed-field-count
error. -/
theorem short_fen_panics :
    new_from_fen "8/8/8/8/8/8/8/8 w KQkq - 0" = RResult.panicked := by
  decide

/-- Claim C3 (failing input): a non-numeric halfmove-clock or fullmove
field makes the decoder panic through `.parse().unwrap()` instead of
returning an invalid-counter error. -/
theorem nonnumeric_counter_panics :
    new_from_fen "8/8/8/8/8/8/8/8 w KQkq - x 1" = RResult.panicked ∧
    new_from_fen "8/8/8/8/8/8/8/8 w KQkq - 0 y" = RResult.panicked := by
  decide

/-- Claim C4 (counterexample): a board field whose first rank holds
nine pawns advances the file past 8, yet the decoder accepts it and
returns a position with a piece at file 8 — no file-overflow error is
raised. -/
theorem file_overflow_accepted :
    new_from_fen "ppppppppp/8/8/8/8/8/8/8 w KQkq - 0 1" = RResult.ok ninePawnBoard ∧
    ∃ p ∈ ninePawnBoard.pieces, 7 < p.x := by
  decide

/-- Claim C5 (counterexample): the en-passant field `"i3"` has a file
letter outside `a`–`h`, yet the decoder accepts it and returns a
position whose en-passant target has file 8 — no invalid-square error
is raised. -/
theorem en_passant_beyond_h_accepted :
    new_from_fen "8/8/8/8/8/8/8/8 w - i3 0 1" =
      RResult.ok
        { pieces := [], current_move := PieceColor.White,
          can_white_king_castle := false, can_white_queen_castle := false,
          can_black_king_castle := false, can_black_queen_castle := false,
          en_passant_square := some (8, 2), halfmove_clock := 0,
          fullmove_num := 1 } := by
  decide

/-- Every character's scalar value is below the Unicode limit. -/
theorem charToNat_lt_limit (c : Char) : c.toNat < 1114112 := by
  have h : c.val.toNat < 55296 ∨ (57343 < c.val.toNat ∧ c.val.toNat < 1114112) := c.valid
  show c.val.toNat < 1114112
  rcases h with h | ⟨_, h⟩ <;> omega

/-- Every byte produced by the UTF-8 encoding of one character is an
actual byte value, below 256. -/
theorem charUtf8_lt (c : Char) : ∀ b ∈ charUtf8 c, b < 256 := by
  intro b hb
  have hc := charToNat_lt_limit c
  simp only [charUtf8] at hb
  repeat' split at hb
  all_goals simp only [List.mem_cons, List.mem_singleton, List.not_mem_nil, or_false] at hb
  all_goals omega

/-- Every byte of the byte view of a string is below 256. -/
theorem utf8Bytes_lt (s : List Char) : ∀ b ∈ utf8Bytes s, b < 256 := by
  intro b hb
  simp only [utf8Bytes] at hb
  rcases List.mem_flatten.mp hb with ⟨l, hl, hbl⟩
  rcases List.mem_map.mp hl with ⟨c, _, rfl⟩
  exact charUtf8_lt c b hbl

/-- On every input string, the source decoder `square_from_string`
agrees with the claim-side description `squareFromStringSpec`. -/
theorem square_from_string_eq_spec (s : List Char) :
    square_from_string s = squareFromStringSpec s := by
  unfold square_from_string squareFromStringSpec
  cases hbs : utf8Bytes s with
  | nil => rfl
  | cons b0 t =>
    cases t with
    | nil => rfl
    | cons b1 t2 =>
      cases t2 with
      | cons b2 t3 => rfl
      | nil =>
        have hb0 : b0 < 256 :=
          utf8Bytes_lt s b0 (by rw [hbs]; exact List.mem_cons_self b0 [b1])
        by_cases h0 : b0 < 97
        · simp [h0]
        · by_cases hd : 48 ≤ b1 ∧ b1 ≤ 57
          · by_cases hz : b1 - 48 = 0
            · have h48 : b1 = 48 := by omega
              simp [h0, hd, hz, h48]
            · have h49 : ¬ b1 = 48 := by omega
              have hr : 49 ≤ b1 ∧ b1 ≤ 57 := by omega
              have hmod1 : (b0 - 97) % 256 = b0 - 97 := Nat.mod_eq_of_lt (by omega)
              have hmod2 : (b1 - 48 - 1) % 256 = b1 - 49 := by
                rw [Nat.mod_eq_of_lt (by omega)]
                omega
              simp [h0, hd, hz, h49, hr, hmod1, hmod2]
          · have h48 : ¬ b1 = 48 := by omega
            have hr : ¬ (49 ≤ b1 ∧ b1 ≤ 57) := by omega
            simp [h0, hd, h48, hr]

/-- Claim C5 (amended): for every en-passant field, the literal `"-"`
yields no target and any other field is decoded by
`square_from_string`, which on every input agrees with the claim-side
description `squareFromStringSpec`: a field of exactly two bytes whose
second byte is a digit `'1'`–`'9'` decodes to (first byte minus `'a'`,
digit minus one) with no check that the file letter lies in `a`–`h` —
so `"e3"` yields `(4, 2)` — only a wrong length or a non-digit second
byte yields the invalid-square error, and a first byte below `'a'` or
the digit `'0'` panics on integer underflow instead of returning an
error. -/
theorem en_passant_decoding (s : List Char) :
    square_from_string s = squareFromStringSpec s ∧
    enPassantField ['-'] = RResult.ok none ∧
    (s ≠ ['-'] →
      enPassantField s =
        match square_from_string s with
        | RResult.ok sq => RResult.ok (some sq)
        | RResult.err _ => RResult.err "Invalid fen"
        | RResult.panicked => RResult.panicked) ∧
    new_from_fen "8/8/8/8/8/8/8/8 w - - 0 1" =
      RResult.ok
        { pieces := [], current_move := PieceColor.White,
          can_white_king_castle := false, can_white_queen_castle := false,
          can_black_king_castle := false, can_black_queen_castle := false,
          en_passant_square := none, halfmove_clock := 0, fullmove_num := 1 } ∧
    new_from_fen "8/8/8/8/8/8/8/8 w - e3 0 1" =
      RResult.ok
        { pieces := [], current_move := PieceColor.White,
          can_white_king_castle := false, can_white_queen_castle := false,
          can_black_king_castle := false, can_black_queen_castle := false,
          en_passant_square := some (4, 2), halfmove_clock := 0,
          fullmove_num := 1 } ∧
    square_from_string "e33".toList = RResult.err "Invalid string to turn into square." ∧
    square_from_string "ex".toList = RResult.err "Invalid string to turn into square." ∧
    square_from_string "e0".toList = RResult.panicked ∧
    square_from_string "A3".toList = RResult.panicked := by
  refine ⟨square_from_string_eq_spec s, by decide, ?_, by decide, by decide, by decide,
    by decide, by decide, by decide⟩
  intro hs
  unfold enPassantField
  rw [if_neg hs]
  cases square_from_string s <;> rfl

/-- Witness for `en_passant_decoding` at the concrete field `"i3"`,
discharging the non-dash hypothesis. -/
theorem en_passant_decoding_witness :
    enPassantField "i3".toList =
      match square_from_string "i3".toList with
      | RResult.ok sq => RResult.ok (some sq)
      | RResult.err _ => RResult.err "Invalid fen"
      | RResult.panicked => RResult.panicked :=
  (en_passant_decoding "i3".toList).2.2.1 (by decide)

/-- Claim C6 (counterexample): a board field with nine ranks is
accepted, and the decoder returns a position whose piece sits at rank
8 — the parsed pieces are not confined to ranks 0–7. -/
theorem rank_overflow_piece :
    new_from_fen "8/8/8/8/8/8/8/8/p w KQkq - 0 1" = RResult.ok overflowRankBoard ∧
    ∃ p ∈ overflowRankBoard.pieces, 7 < p.y := by
  decide

/-- Claim C7: parsing the standard initial-position encoding succeeds
and yields exactly the board of the source's own test: 32 pieces,
White to move, all four castling flags set, no en-passant target,
halfmove clock 0, fullmove number 1, Black's back rank at rank 0 and
White's at rank 7. -/
theorem initial_position_parse :
    new_from_fen stdFen = RResult.ok stdBoard ∧
    stdBoard.pieces.length = 32 ∧
    stdBoard.current_move = PieceColor.White ∧
    stdBoard.can_white_king_castle = true ∧
    stdBoard.can_white_queen_castle = true ∧
    stdBoard.can_black_king_castle = true ∧
    stdBoard.can_black_queen_castle = true ∧
    stdBoard.en_passant_square = none ∧
    stdBoard.halfmove_clock = 0 ∧
    stdBoard.fullmove_num = 1 := by
  decide

/-- Claim C4 (amended): the board-field scan performs no rank or file
bound check, so the only error it can ever return is the generic
invalid-piece rejection — no rank-overflow or file-overflow error
exists — and an encoding whose board field describes a single rank is
accepted silently. -/
theorem board_scan_error_unique (cs : List Char) (x y : Nat) (acc : List Piece)
    (e : String) (h : scanBoard cs x y acc = RResult.err e) :
    e = "Invalid fen" ∧
    new_from_fen "8 w KQkq - 0 1" =
      RResult.ok
        { pieces := [], current_move := PieceColor.White,
          can_white_king_castle := true, can_white_queen_castle := true,
          can_black_king_castle := true, can_black_queen_castle := true,
          en_passant_square := none, halfmove_clock := 0, fullmove_num := 1 } := by
  refine ⟨?_, by decide⟩
  induction cs generalizing x y acc with
  | nil => simp [scanBoard] at h
  | cons v rest ih =>
    simp only [scanBoard] at h
    split at h
    · split at h
      · exact ih _ _ _ h
      · exact absurd h (by simp)
    · split at h
      · split at h
        · exact ih _ _ _ h
        · exact absurd h (by simp)
      · split at h
        · simp only [RResult.err.injEq] at h
          exact h.symm
        · split at h
          · exact ih _ _ _ h
          · exact absurd h (by simp)

/-- Witness for `board_scan_error_unique` at the concrete rank
`"z"`. -/
theorem board_scan_error_unique_witness :
    "Invalid fen" = "Invalid fen" ∧
    new_from_fen "8 w KQkq - 0 1" =
      RResult.ok
        { pieces := [], current_move := PieceColor.White,
          can_white_king_castle := true, can_white_queen_castle := true,
          can_black_king_castle := true, can_black_queen_castle := true,
          en_passant_square := none, halfmove_clock := 0, fullmove_num := 1 } :=
  board_scan_error_unique ['z'] 0 0 [] "Invalid fen" (by decide)

/-- Every piece the scan has accumulated lies strictly before the
cursor in scan order, and the accumulator stays strictly increasing in
that order; hence so does any successful result. -/
theorem scanBoard_pairwise (cs : List Char) :
    ∀ (x y : Nat) (acc : List Piece),
      (∀ p ∈ acc, p.y < y ∨ (p.y = y ∧ p.x < x)) →
      acc.Pairwise lexLt →
      ∀ res, scanBoard cs x y acc = RResult.ok res → res.Pairwise lexLt := by
  induction cs with
  | nil =>
    intro x y acc _hacc hpw res h
    simp only [scanBoard, RResult.ok.injEq] at h
    exact h ▸ hpw
  | cons v rest ih =>
    intro x y acc hacc hpw res h
    simp only [scanBoard] at h
    split at h
    · split at h
      · refine ih _ _ _ (fun p hp => ?_) hpw res h
        rcases hacc p hp with h1 | ⟨h1, h2⟩
        · exact Or.inl h1
        · exact Or.inr ⟨h1, Nat.lt_of_lt_of_le h2 (Nat.le_add_right _ _)⟩
      · exact absurd h (by simp)
    · split at h
      · split at h
        · refine ih _ _ _ (fun p hp => ?_) hpw res h
          rcases hacc p hp with h1 | ⟨h1, _⟩
          · exact Or.inl (Nat.lt_succ_of_lt h1)
          · exact Or.inl (h1 ▸ Nat.lt_succ_self y)
        · exact absurd h (by simp)
      · split at h
        · exact absurd h (by simp)
        · split at h
          · refine ih _ _ _ (fun p hp => ?_) ?_ res h
            · rcases List.mem_append.mp hp with hp | hp
              · rcases hacc p hp with h1 | ⟨h1, h2⟩
                · exact Or.inl h1
                · exact Or.inr ⟨h1, Nat.lt_succ_of_lt h2⟩
              · rcases List.mem_singleton.mp hp with rfl
                exact Or.inr ⟨rfl, Nat.lt_succ_self x⟩
            · refine List.pairwise_append.mpr ⟨hpw, List.pairwise_singleton _ _, ?_⟩
              intro a ha c hc
              rcases List.mem_singleton.mp hc with rfl
              rcases hacc a ha with h1 | ⟨h1, h2⟩
              · exact Or.inl h1
              · exact Or.inr ⟨h1, h2⟩
          · exact absurd h (by simp)

/-- Claim C6 (amended): whenever the decoder succeeds, the returned
piece sequence is strictly increasing in the lexicographic
(rank, file) order, i.e. it lists the pieces in board-field scan order
(top rank to bottom, left file to right within a rank). -/
theorem parse_pieces_scan_order (fen : String) (b : Board)
    (h : new_from_fen fen = RResult.ok b) :
    List.Pairwise lexLt b.pieces := by
  simp only [new_from_fen] at h
  repeat' split at h
  any_goals exact RResult.noConfusion h
  simp only [RResult.ok.injEq] at h
  subst h
  exact scanBoard_pairwise _ 0 0 [] (by simp) List.Pairwise.nil _ (by assumption)

/-- Witness for `parse_pieces_scan_order` at the standard initial
position. -/
theorem parse_pieces_scan_order_witness : List.Pairwise lexLt stdBoard.pieces :=
  parse_pieces_scan_order stdFen stdBoard (by decide)

/-- The render inner loop stops at the first sequence-order match,
which is exactly `List.find?` of the square predicate. -/
theorem findPieceAt_eq_find? (l : List Piece) (x y : Nat) :
    findPieceAt l x y = l.find? (fun v => v.x == x && v.y == y) := by
  induction l with
  | nil => rfl
  | cons v rest ih =>
    simp only [findPieceAt, List.find?]
    cases hv : (v.x == x && v.y == y) <;> simp [hv, ih]

/-- Each rendered square is exactly two characters: the piece letter
or the `'*'` marker, then the separator space. -/
theorem squareCell_length (b : Board) (x y : Nat) :
    (squareCell b x y).length = 2 := by
  unfold squareCell
  split <;> rfl

/-- A rendered line is sixteen characters: eight two-character
cells. -/
theorem lineFor_length (b : Board) (y : Nat) : (lineFor b y).length = 16 := by
  have hrange : List.range 8 = [0, 1, 2, 3, 4, 5, 6, 7] := rfl
  simp [lineFor, hrange, squareCell_length]

/-- Claim C9: rendering is a total function of the position — defined
for every `Board`, including ones with two pieces on one square — and
produces exactly eight lines of eight space-separated single-character
tokens; the token of an occupied square is the letter (cased by side)
of the first matching piece in stored sequence order (`find?`) and the
fixed marker `'*'` otherwise, and the full output is those lines each
followed by a newline. -/
theorem render_structure (b : Board) :
    (renderLines b).length = 8 ∧
    renderLines b =
      (List.range 8).map (fun y => ((List.range 8).map (fun x => specCell b x y)).flatten) ∧
    (renderLines b).map List.length = [16, 16, 16, 16, 16, 16, 16, 16] ∧
    render b = ((renderLines b).map (fun l => l ++ ['\n'])).flatten := by
  have hcell : ∀ x y, squareCell b x y = specCell b x y := by
    intro x y
    simp [squareCell, specCell, findPieceAt_eq_find?]
  have hrange : List.range 8 = [0, 1, 2, 3, 4, 5, 6, 7] := rfl
  refine ⟨by simp [renderLines], ?_, ?_, ?_⟩
  · simp [renderLines, lineFor, hcell]
  · simp [renderLines, hrange, lineFor_length]
  · simp [render, renderLines, List.map_map]
    rfl

/-- A degenerate board with two pieces on the same square, used to
exercise the renderer's first-match behaviour. -/
def clashBoard : Board :=
  { pieces :=
      [{ x := 0, y := 0, ptype := PieceType.Rook, color := PieceColor.White },
       { x := 0, y := 0, ptype := PieceType.Queen, color := PieceColor.Black }],
    current_move := PieceColor.White,
    can_white_king_castle := false,
    can_white_queen_castle := false,
    can_black_king_castle := false,
    can_black_queen_castle := false,
    en_passant_square := none,
    halfmove_clock := 0,
    fullmove_num := 1 }

/-- Witness for `render_structure` at a board with two pieces on one
square: rendering still produces its eight lines. -/
theorem render_structure_witness : (renderLines clashBoard).length = 8 :=
  (render_structure clashBoard).1

/-- A numeral field strictly larger than 255 fails the `u8` parse. -/
theorem parseRustUInt_big_none (s : List Char) (h1 : isNumeral s = true)
    (h2 : 255 < numeralVal s) : parseRustUInt 255 s = none := by
  simp only [isNumeral, Bool.and_eq_true] at h1
  obtain ⟨hne, hall⟩ := h1
  have hstrip : stripPlus s = s := by
    unfold stripPlus
    match s with
    | [] => rfl
    | c :: rest =>
      have hc : c.isDigit = true := by
        have := (List.all_eq_true.mp hall) c (List.mem_cons_self c rest)
        exact this
      have : ¬ c = '+' := by
        intro hplus
        rw [hplus] at hc
        exact absurd hc (by decide)
      simp [this]
  have hempty : s.isEmpty = false := by
    cases s with
    | nil => exact absurd hne (by decide)
    | cons c rest => rfl
  unfold parseRustUInt
  rw [hstrip]
  simp only [hempty, Bool.false_eq_true, if_false, hall, if_true]
  have : ¬ (s.foldl (fun a c => a * 10 + (c.toNat - 48)) 0 ≤ 255) := by
    unfold numeralVal at h2
    omega
  simp [this]

/-- From a successful decode, the halfmove field (index 4) exists and
passes the `u8` parse with the stored clock value. -/
theorem new_from_fen_ok_halfmove (fen : String) (b : Board)
    (h : new_from_fen fen = RResult.ok b) :
    ∃ f4, (splitSpaces fen.toList)[4]? = some f4 ∧
      parseRustUInt 255 f4 = some b.halfmove_clock := by
  simp only [new_from_fen] at h
  repeat' split at h
  any_goals exact RResult.noConfusion h
  simp only [RResult.ok.injEq] at h
  subst h
  exact ⟨_, by assumption, by assumption⟩

/-- Claim C10: the halfmove clock is stored in an 8-bit integer — when
the halfmove field is a numeral whose value exceeds 255 the decoder
never returns a position, because the numeric parse of that field
fails — while the fullmove field, stored in 32 bits, accepts values up
to 4294967295. -/
theorem halfmove_clock_u8_bound (fen : String) (f4 : List Char) (b : Board)
    (hfield : (splitSpaces fen.toList)[4]? = some f4)
    (hnum : isNumeral f4 = true) (hval : 255 < numeralVal f4) :
    new_from_fen fen ≠ RResult.ok b ∧
    new_from_fen "8/8/8/8/8/8/8/8 w - - 0 4294967295" =
      RResult.ok
        { pieces := [], current_move := PieceColor.White,
          can_white_king_castle := false, can_white_queen_castle := false,
          can_black_king_castle := false, can_black_queen_castle := false,
          en_passant_square := none, halfmove_clock := 0,
          fullmove_num := 4294967295 } := by
  refine ⟨?_, by decide⟩
  intro h
  obtain ⟨f4', hfield', hparse⟩ := new_from_fen_ok_halfmove fen b h
  rw [hfield] at hfield'
  cases hfield'
  rw [parseRustUInt_big_none f4 hnum hval] at hparse
  exact Option.noConfusion hparse

/-- Witness for `halfmove_clock_u8_bound`: halfmove field `"300"` never
yields a position. -/
theorem halfmove_clock_u8_bound_witness :
    new_from_fen "8/8/8/8/8/8/8/8 w - - 300 1" ≠ RResult.ok stdBoard :=
  (halfmove_clock_u8_bound "8/8/8/8/8/8/8/8 w - - 300 1" ['3', '0', '0'] stdBoard
    (by decide) (by decide) (by decide)).1

/-- Claim C8: on each of the six valid lowercase piece letters,
`char_to_piece_type` succeeds and `piece_type_to_char` maps the result
back to the same letter. -/
theorem piece_letter_roundtrip :
    (['p', 'r', 'n', 'b', 'q', 'k'].all fun c =>
      match char_to_piece_type c with
      | .ok k => piece_type_to_char k == c
      | .error _ => false) = true := by
  decide

example : square_from_string "e3".toList = RResult.ok (4, 2) := by decide

example : splitSpaces "a b".toList = [['a'], ['b']] := by decide

example :
    new_from_fen "8/8/8/8/8/8/8/8 w - - 0 1" =
      RResult.ok
        { pieces := [], current_move := PieceColor.White,
          can_white_king_castle := false, can_white_queen_castle := false,
          can_black_king_castle := false, can_black_queen_castle := false,
          en_passant_square := none, halfmove_clock := 0, fullmove_num := 1 } := by
  decide
